import Mathlib

/-!
# Verification of the FileSoftLink directory-mirroring plugin

Shallow embedding of `src/plugins/filesoftlink/__init__.py` (class
`FileSoftLink`).  Paths are modelled as plain strings (the code itself mixes
`str` and `pathlib.Path` values; where the distinction is semantically
significant — `__handle_file` receives a `str` from `event_handler` but a
`Path` from `sync_all` — the model keeps a tagged type `PyStrOrPath`).
The filesystem is a finite association list from absolute path to entry.
Python exceptions are modelled as explicit `PyErr` values: an operation
returns the filesystem as mutated so far together with the exception that
propagates (if any), matching Python semantics where side effects performed
before a raise persist.
-/

set_option autoImplicit false

namespace FileSoftLink

/-- Kinds of Python exceptions raised by the code paths under study. -/
inductive PyErr where
  | typeError
  | attributeError
  | valueError
  | fileExistsError
  | isADirectoryError
  deriving DecidableEq, Repr

/-! ## Character-list string helpers

Small, kernel-friendly reimplementations of the string operations used by
the source (`str.split`, substring membership, `Path.relative_to`,
`Path.joinpath`, `Path.suffix`). -/

/-- `startsWithL n h` is true when the char list `n` is an initial segment of `h`. -/
def startsWithL : List Char → List Char → Bool
  | [], _ => true
  | _ :: _, [] => false
  | a :: as, b :: bs => a == b && startsWithL as bs

/-- `occursIn n h`: the char list `n` occurs contiguously inside `h`
(Python `n in h` for strings). -/
def occursIn (n : List Char) : List Char → Bool
  | [] => n.isEmpty
  | c :: hs => startsWithL n (c :: hs) || occursIn n hs

/-- Python `needle in hay` on strings (substring test). -/
def containsSub (needle hay : String) : Bool :=
  occursIn needle.toList hay.toList

/-- Split a char list on a separator character (Python `str.split(sep)`:
always returns at least one piece, empty pieces preserved). -/
def splitOnChar (sep : Char) : List Char → List (List Char)
  | [] => [[]]
  | c :: rest =>
    let r := splitOnChar sep rest
    if c == sep then [] :: r
    else
      match r with
      | h :: t => (c :: h) :: t
      | [] => [[c]]

/-- Python `s.split(sep)` for a one-character separator. -/
def pySplit (sep : Char) (s : String) : List String :=
  (splitOnChar sep s.toList).map List.asString

/-- `Path(p).relative_to(mon)` for normalized absolute paths: succeeds when
`p` equals `mon` (giving `"."`) or lies strictly below it, returning the
relative remainder; `none` models the `ValueError` raise. -/
def relative_to (p mon : String) : Option String :=
  if p = mon then some "."
  else if startsWithL (mon.toList ++ ['/']) p.toList then
    some (List.asString (p.toList.drop (mon.toList.length + 1)))
  else none

/-- `Path(t).joinpath(rel)` for a normalized relative part (pathlib drops a
lone `"."` component). -/
def joinPath (t rel : String) : String :=
  if rel = "." then t else t ++ "/" ++ rel

/-- `Path(dst).is_relative_to(Path(src))` for normalized absolute paths:
equal, or strictly below. -/
def is_relative_to (dst src : String) : Bool :=
  dst == src || startsWithL (src.toList ++ ['/']) dst.toList

/-- The last `/`-separated component of a path (`Path(p).name`). -/
def lastComponent (p : String) : String :=
  List.asString ((splitOnChar '/' p.toList).getLastD [])

/-- Join char-list components with a separator (inverse of `splitOnChar`). -/
def joinWith (sep : Char) : List (List Char) → List Char
  | [] => []
  | [x] => x
  | x :: y :: xs => x ++ sep :: joinWith sep (y :: xs)

/-- `Path(p).parent` as a string: drop the last `/`-component. -/
def parentDir (p : String) : String :=
  List.asString (joinWith '/' ((splitOnChar '/' p.toList).dropLast))

/-- CPython `PurePath.suffix` of a file name: the part from the last dot,
provided that dot is neither the first nor the last character of the name. -/
def pySuffixOfName (name : String) : String :=
  let cs := name.toList
  match ((List.range cs.length).filter (fun i => cs.getD i ' ' == '.')).getLast? with
  | some i => if 0 < i ∧ i + 1 < cs.length then List.asString (cs.drop i) else ""
  | none => ""

/-- `path.suffix.lower()` of a full path. -/
def suffixLower (p : String) : String :=
  (pySuffixOfName (lastComponent p)).toLower

/-! ## Filesystem model -/

/-- A directory entry: regular file (with byte size), symbolic link (with
its referent path), or directory. -/
inductive Entry where
  | file (size : Nat)
  | symlink (target : String)
  | dir
  deriving DecidableEq, Repr

/-- A filesystem: finite association list from absolute path to entry. -/
def FS : Type := List (String × Entry)

instance : DecidableEq FS := inferInstanceAs (DecidableEq (List (String × Entry)))

/-- Raw lookup of a path's entry (first match wins). -/
def fsLookup : FS → String → Option Entry
  | [], _ => none
  | (k, e) :: r, p => if k = p then some e else fsLookup r p

/-- Remove the entry at a path (`Path.unlink`). -/
def fsErase (fs : FS) (p : String) : FS :=
  fs.filter (fun pr => pr.1 != p)

/-- Create or replace the entry at a path. -/
def fsInsert (fs : FS) (p : String) (e : Entry) : FS :=
  (p, e) :: fsErase fs p

/-- Whether the entry at `t` is a concrete (non-symlink) entry: one level of
symlink dereference for `exists`.  Symlink chains are not modelled. -/
def derefConcrete (fs : FS) (t : String) : Bool :=
  match fsLookup fs t with
  | some (Entry.file _) => true
  | some Entry.dir => true
  | some (Entry.symlink _) => false
  | none => false

/-- `Path(p).exists()`: follows a symbolic link, so a dangling symlink does
not exist. -/
def fsExists (fs : FS) (p : String) : Bool :=
  match fsLookup fs p with
  | some (Entry.file _) => true
  | some Entry.dir => true
  | some (Entry.symlink t) => derefConcrete fs t
  | none => false

/-- `Path(p).is_file()`: follows a symbolic link; directories are not files. -/
def fsIsFile (fs : FS) (p : String) : Bool :=
  match fsLookup fs p with
  | some (Entry.file _) => true
  | some Entry.dir => false
  | some (Entry.symlink t) =>
    match fsLookup fs t with
    | some (Entry.file _) => true
    | _ => false
  | none => false

/-- `os.path.getsize(p)` (follows symlinks; only evaluated by the code under
an `exists()` guard, other cases default to 0). -/
def fsSize (fs : FS) (p : String) : Nat :=
  match fsLookup fs p with
  | some (Entry.file n) => n
  | some (Entry.symlink t) =>
    match fsLookup fs t with
    | some (Entry.file n) => n
    | _ => 0
  | _ => 0

/-! ## Plugin configuration state -/

/-- The configuration fields of the `FileSoftLink` instance that the
synchronization paths read: `_dirconf` (source directory → optional
destination, insertion-ordered), `_copy_files`, `_size` (megabytes) and
`_exclude_keywords`. -/
structure PluginState where
  dirconf : List (String × Option String)
  copy_files : Bool
  size : Nat
  exclude_keywords : String
  deriving DecidableEq, Repr

/-- The non-`None` destination values of `_dirconf`
(`[p for p in self._dirconf.values() if p]`). -/
def dests (dirconf : List (String × Option String)) : List String :=
  dirconf.filterMap Prod.snd

/-- `dict.get` on `_dirconf` collapsed through the optional value
(`self._dirconf.get(mon_path)`: a missing key yields `None`, as does a
stored `None`). -/
def flatGet : List (String × Option String) → String → Option String
  | [], _ => none
  | (k, v) :: r, mon => if k = mon then v else flatGet r mon

/-! ## The destination-membership guard (source line 289)

The source evaluates `any([p in str(path) for p in self._dirconf.values()
if p])`.  Each surviving `p` is a `pathlib.Path` object (stored as
`Path(paths[1])` at configuration time), and `p in str(path)` invokes
`str.__contains__` on the right operand, which raises
`TypeError: 'in <string>' requires string as left operand, not PosixPath`
for any non-`str` argument.  Hence the comprehension raises `TypeError` as
soon as one non-`None` destination is configured, and only an all-`None`
(or empty) table lets `any([])` return `False`. -/
def insideAnyDestination (dirconf : List (String × Option String))
    (_path : String) : Except PyErr Bool :=
  match dests dirconf with
  | [] => Except.ok false
  | _ :: _ => Except.error PyErr.typeError

/-! ## Single-file materialization (`__handle_file`) -/

/-- `Modelled from the spec: the media-video extension set provided by the
host application (referenced by the source as MediaType.ALL_VIDEO, not under
src/).` -/
def allVideoExts : List String :=
  [".mp4", ".mkv", ".ts", ".iso", ".rmvb", ".avi", ".mov", ".mpeg",
   ".mpg", ".wmv", ".3gp", ".asf", ".m4v", ".flv", ".m2ts", ".strm"]

/-- `Modelled from the spec: the subtitle extension set provided by the host
application (referenced by the source as MediaType.ALL_SUBTITLE, not under
src/).` -/
def allSubtitleExts : List String :=
  [".srt", ".ass", ".ssa", ".sup"]

/-- `os.symlink(path, target_file)`: raises `FileExistsError` when an entry
(e.g. a dangling symlink that survived the `exists()`-guarded unlink) is
still present at the target. -/
def symlinkCreate (fs : FS) (src target : String) : FS × Option PyErr :=
  if (fsLookup fs target).isSome then (fs, some PyErr.fileExistsError)
  else (fsInsert fs target (Entry.symlink src), none)

/-- `target_dir.mkdir(parents=True, exist_ok=True)`: create the directory
and every missing ancestor. -/
def mkdirParents (fs : FS) (dir : String) : FS :=
  let comps := splitOnChar '/' dir.toList
  ((List.range comps.length).map
      (fun k => List.asString (joinWith '/' (comps.take (k + 1))))).foldl
    (fun acc d =>
      if d = "" then acc
      else if (fsLookup acc d).isSome then acc
      else fsInsert acc d Entry.dir)
    fs

/-- Lines 292-310 of `__handle_file`: build the target path, create parent
directories, replace any existing target, then link or copy according to
`_copy_files` and the extension sets. -/
def materializeTail (st : PluginState) (fs : FS) (s t rel : String) :
    FS × Option PyErr :=
  let target_file := joinPath t rel
  let fs1 := mkdirParents fs (parentDir target_file)
  let fs2 := if fsExists fs1 target_file then fsErase fs1 target_file else fs1
  if st.copy_files then
    if suffixLower s ∈ allVideoExts ++ allSubtitleExts then
      symlinkCreate fs2 s target_file
    else (fsInsert fs2 target_file (Entry.file (fsSize fs2 s)), none)
  else symlinkCreate fs2 s target_file

/-- The dynamic type of the `path` argument of `__handle_file`: `sync_all`
passes a `pathlib.Path` (from `rglob`), while `event_handler` passes the raw
event path, a `str`. -/
inductive PyStrOrPath where
  | str (s : String)
  | path (s : String)
  deriving DecidableEq, Repr

/-- `__handle_file(path, mon_path, target_path)` (lines 280-310).  When
`path` is a `str`, `path.exists()` raises `AttributeError` immediately
(`str` has no attribute `exists`).  When it is a `Path`: vanished files are
a silent no-op; the destination-membership guard raises `TypeError` whenever
a non-`None` destination is configured (see `insideAnyDestination`);
`relative_to` raises `ValueError` off-tree; `None.joinpath` raises
`AttributeError` when the mapping stores no destination; otherwise the
materialization tail runs. -/
def handle_file (st : PluginState) (fs : FS) (p : PyStrOrPath)
    (mon : String) (tgt : Option String) : FS × Option PyErr :=
  match p with
  | PyStrOrPath.str _ => (fs, some PyErr.attributeError)
  | PyStrOrPath.path s =>
    if fsExists fs s = false then (fs, none)
    else
      match insideAnyDestination st.dirconf s with
      | Except.error e => (fs, some e)
      | Except.ok true => (fs, none)
      | Except.ok false =>
        match relative_to s mon with
        | none => (fs, some PyErr.valueError)
        | some rel =>
          match tgt with
          | none => (fs, some PyErr.attributeError)
          | some t => materializeTail st fs s t rel

/-! ## Deletion propagation (`__handle_delete`, lines 312-322) -/

/-- The `for target_dir in self._dirconf.values()` loop: for each non-`None`
destination, `target_file.unlink()` runs when `exists()` holds.  `unlink`
removes a regular file, or a symbolic link itself (even one pointing at a
directory); on a directory it raises `IsADirectoryError`, which propagates
out of the loop, leaving the directory and the remaining destinations
untouched (earlier unlinks persist). -/
def delLoop : List (String × Option String) → String → FS → FS × Option PyErr
  | [], _, fs => (fs, none)
  | (_, none) :: rest, rel, fs => delLoop rest rel fs
  | (_, some t) :: rest, rel, fs =>
    if fsExists fs (joinPath t rel) then
      match fsLookup fs (joinPath t rel) with
      | some Entry.dir => (fs, some PyErr.isADirectoryError)
      | _ => delLoop rest rel (fsErase fs (joinPath t rel))
    else delLoop rest rel fs

/-- `__handle_delete(path, mon_path)`: relativize (raising `ValueError`
off-tree), then run the per-destination unlink loop (whose
`IsADirectoryError`, if any, propagates to the caller). -/
def handle_delete (st : PluginState) (fs : FS) (p mon : String) :
    FS × Option PyErr :=
  match relative_to p mon with
  | none => (fs, some PyErr.valueError)
  | some rel => delLoop st.dirconf rel fs

/-! ## Event handling (`event_handler`, lines 250-278) -/

/-- `event_handler(event, text, mon_path, event_path)`.  Runs under
`with lock:`; the inner `try/except` catches every exception, logs it and
posts a system message, so nothing propagates to the watchdog thread.  The
second component of the result is the exception that was caught and
reported (`none` when handling finished or was skipped).  The regex engine
(`re.findall(..., re.IGNORECASE)` tested for a non-empty match list) is
external; it is abstracted as the boolean matcher `rg`. -/
def event_handler (rg : String → String → Bool) (st : PluginState) (fs : FS)
    (text mon eventPath : String) : FS × Option PyErr :=
  if fsExists fs eventPath = false ∧ text ≠ "删除" then (fs, none)
  else if 0 < st.size ∧ fsExists fs eventPath = true ∧
      st.size * 1024 * 1024 < fsSize fs eventPath then (fs, none)
  else if st.exclude_keywords ≠ "" ∧ rg st.exclude_keywords eventPath = true then
    (fs, none)
  else if text = "删除" then handle_delete st fs eventPath mon
  else handle_file st fs (PyStrOrPath.str eventPath) mon (flatGet st.dirconf mon)

/-! ## Full resynchronization (`sync_all`, lines 240-248) -/

/-- `Path(mon).rglob('*')` filtered by `is_file()`: every recorded path
strictly below the monitored root whose entry is a regular file (following
symlinks). -/
def filesUnder (fs : FS) (mon : String) : List String :=
  (fs.map Prod.fst).filter
    (fun p => startsWithL (mon.toList ++ ['/']) p.toList && fsIsFile fs p)

/-- The inner `for path in Path(mon_path).rglob('*')` loop of `sync_all`:
handle each file in turn; an exception propagates immediately (there is no
`try/except` in `sync_all`), keeping the filesystem as mutated so far. -/
def handleFiles (st : PluginState) (mon : String) (tgt : Option String) :
    List String → FS → FS × Option PyErr
  | [], fs => (fs, none)
  | p :: ps, fs =>
    match handle_file st fs (PyStrOrPath.path p) mon tgt with
    | (fs', none) => handleFiles st mon tgt ps fs'
    | (fs', some e) => (fs', some e)

/-- The outer `for mon_path, target_path in self._dirconf.items()` loop of
`sync_all`; an exception from the inner loop also aborts the outer loop. -/
def syncGo (st : PluginState) : List (String × Option String) → FS →
    FS × Option PyErr
  | [], fs => (fs, none)
  | (mon, tgt) :: rest, fs =>
    match handleFiles st mon tgt (filesUnder fs mon) fs with
    | (fs', none) => syncGo st rest fs'
    | (fs', some e) => (fs', some e)

/-- `sync_all()`: walk every configured mapping. -/
def sync_all (st : PluginState) (fs : FS) : FS × Option PyErr :=
  syncGo st st.dirconf fs

/-! ## Engine-level operation sequences -/

/-- An operation of the engine: a filesystem event delivered to
`event_handler`, or a full resync. -/
inductive EngineOp where
  | ev (text mon path : String)
  | syncAll

/-- Run one operation, keeping the filesystem state.  `event_handler`
swallows its exceptions; an exception escaping `sync_all` kills only the
scheduler job that invoked it, so in both cases the engine continues from
the filesystem as left behind. -/
def runOp (rg : String → String → Bool) (st : PluginState) (fs : FS) :
    EngineOp → FS
  | EngineOp.ev text mon p => (event_handler rg st fs text mon p).1
  | EngineOp.syncAll => (sync_all st fs).1

/-- Run a sequence of engine operations. -/
def runOps (rg : String → String → Bool) (st : PluginState)
    (ops : List EngineOp) (fs : FS) : FS :=
  ops.foldl (fun fs op => runOp rg st fs op) fs

/-! ## Configuration parsing (`init_plugin`, lines 89-176)

Only the non-Windows branch is modelled (`paths = mon_path.split(":")`); the
Windows drive-letter re-splitting is platform glue.  Scheduler/observer
objects are abstracted to the list of source directories for which a
`start_monitor` job is scheduled. -/

/-- The `_dirconf` table together with the sources for which a watch job
(`start_monitor`) was scheduled. -/
structure InitResult where
  dirconf : List (String × Option String)
  watchJobs : List String
  deriving DecidableEq, Repr

/-- Python `dict` assignment `self._dirconf[mon_path] = v`: update an
existing key in place, else append. -/
def dictInsert (l : List (String × Option String)) (k : String)
    (v : Option String) : List (String × Option String) :=
  if l.any (fun pr => pr.1 == k) then
    l.map (fun pr => if pr.1 = k then (k, v) else pr)
  else l ++ [(k, v)]

/-- Parse one `monitor_dirs` line: `source[:destination]` (extra `:`-pieces
beyond the second are ignored, exactly as `paths[0]`/`paths[1]` are). -/
def parseLine (line : String) : String × Option String :=
  let paths := pySplit ':' line
  if paths.length > 1 then (paths.getD 0 "", some (paths.getD 1 ""))
  else (line, none)

/-- One iteration of the `for mon_path in monitor_dirs:` loop: empty lines
are skipped; the mapping is stored into `_dirconf` unconditionally; when
`_enabled` is set, the nested-destination check runs and `continue` skips
only the scheduling of the watch job for that line. -/
def lineStep (enabled : Bool) (acc : InitResult) (line : String) : InitResult :=
  if line = "" then acc
  else
    match parseLine line with
    | (mon, tgt) =>
      let dirconf' := dictInsert acc.dirconf mon tgt
      if enabled then
        match tgt with
        | some t =>
          if is_relative_to t mon then
            { dirconf := dirconf', watchJobs := acc.watchJobs }
          else
            { dirconf := dirconf', watchJobs := acc.watchJobs ++ [mon] }
        | none => { dirconf := dirconf', watchJobs := acc.watchJobs ++ [mon] }
      else { dirconf := dirconf', watchJobs := acc.watchJobs }

/-- `init_plugin`: `_dirconf` is cleared, and the directory-configuration
loop runs only when `_enabled or _onlyonce`. -/
def init_plugin (enabled onlyonce : Bool) (monitor_dirs : String) : InitResult :=
  if enabled || onlyonce then
    (pySplit '\n' monitor_dirs).foldl (lineStep enabled) ⟨[], []⟩
  else ⟨[], []⟩

/-! ## Lock-trace model

The locking structure of the two mutation entry points.  `event_handler`
handles events inside `with lock:` (the `try/except` sits inside the
critical section, so the lock is released on every exit path, exceptions
included); `sync_all` calls `__handle_file` directly with no lock
interaction.  An action is a lock acquisition/release or the handling of a
single path (the call that performs — or attempts — the filesystem
mutations for that path). -/

inductive Act where
  | acquire
  | release
  | handleFileAct (p : String)
  | handleDeleteAct (p : String)
  deriving DecidableEq, Repr

/-- The handling actions of the body of `event_handler` (mirrors the branch
structure of `event_handler`). -/
def event_body_acts (rg : String → String → Bool) (st : PluginState)
    (fs : FS) (text _mon eventPath : String) : List Act :=
  if fsExists fs eventPath = false ∧ text ≠ "删除" then []
  else if 0 < st.size ∧ fsExists fs eventPath = true ∧
      st.size * 1024 * 1024 < fsSize fs eventPath then []
  else if st.exclude_keywords ≠ "" ∧ rg st.exclude_keywords eventPath = true then []
  else if text = "删除" then [Act.handleDeleteAct eventPath]
  else [Act.handleFileAct eventPath]

/-- The action trace of one `event_handler` call: `with lock:` brackets the
whole body, and the body's `try/except` catches every exception before the
release. -/
def event_handler_trace (rg : String → String → Bool) (st : PluginState)
    (fs : FS) (text mon eventPath : String) : List Act :=
  Act.acquire :: event_body_acts rg st fs text mon eventPath ++ [Act.release]

/-- The action trace of the inner file loop of `sync_all` (stops after the
file whose handling raised, since the exception propagates). -/
def handleFilesTrace (st : PluginState) (mon : String) (tgt : Option String) :
    List String → FS → List Act × (FS × Option PyErr)
  | [], fs => ([], (fs, none))
  | p :: ps, fs =>
    match handle_file st fs (PyStrOrPath.path p) mon tgt with
    | (fs', none) =>
      let r := handleFilesTrace st mon tgt ps fs'
      (Act.handleFileAct p :: r.1, r.2)
    | (fs', some e) => ([Act.handleFileAct p], (fs', some e))

/-- The action trace of the outer mapping loop of `sync_all`. -/
def syncGoTrace (st : PluginState) :
    List (String × Option String) → FS → List Act
  | [], _ => []
  | (mon, tgt) :: rest, fs =>
    match handleFilesTrace st mon tgt (filesUnder fs mon) fs with
    | (acts, (fs', none)) => acts ++ syncGoTrace st rest fs'
    | (acts, (_, some _)) => acts

/-- The action trace of one `sync_all` call: no lock is ever touched. -/
def sync_all_trace (st : PluginState) (fs : FS) : List Act :=
  syncGoTrace st st.dirconf fs

/-- Scan a trace keeping the lock-nesting depth; `true` when every
non-lock action happens at positive depth and no release underflows. -/
def lockScan : Nat → List Act → Bool
  | _, [] => true
  | d, Act.acquire :: r => lockScan (d + 1) r
  | d, Act.release :: r => decide (0 < d) && lockScan (d - 1) r
  | d, Act.handleFileAct _ :: r => decide (0 < d) && lockScan d r
  | d, Act.handleDeleteAct _ :: r => decide (0 < d) && lockScan d r

/-- Every handling action of the trace occurs while the global lock is
held. -/
def allUnderLock (t : List Act) : Bool := lockScan 0 t

/-- `true` when the trace contains no lock interaction at all. -/
def noLockActs (t : List Act) : Bool :=
  t.all (fun a =>
    match a with
    | Act.acquire => false
    | Act.release => false
    | _ => true)

/-! ## The spec's reading of the destination-membership guard

For comparison with `insideAnyDestination` (the code): the spec describes
`isInsideAnyDestination(path, mapping)` as a total boolean substring
check. -/

/-- The guard as the spec words it: true when some configured non-empty
destination root is a substring of the path. -/
def isInsideAnyDestinationSpec (dirconf : List (String × Option String))
    (path : String) : Bool :=
  (dests dirconf).any (fun t => containsSub t path)

/-! ## Supporting lemmas -/

theorem fsLookup_fsErase (fs : FS) (k q : String) :
    fsLookup (fsErase fs k) q = if q = k then none else fsLookup fs q := by
  induction fs with
  | nil => simp [fsErase, fsLookup]
  | cons hd tl ih =>
    obtain ⟨k', e⟩ := hd
    simp only [fsErase] at ih ⊢
    rw [List.filter_cons]
    by_cases hk : k' = k
    · subst hk
      simp only [bne_self_eq_false, Bool.false_eq_true, if_false]
      rw [ih]
      by_cases hq : q = k'
      · simp [hq]
      · have hq' : ¬ k' = q := fun h => hq h.symm
        simp [hq, fsLookup, hq']
    · have hb : (k' != k) = true := bne_iff_ne.mpr hk
      simp only [hb, if_true]
      by_cases hq : k' = q
      · have hqk : ¬ q = k := fun h => hk (hq.trans h)
        simp [fsLookup, hq, hqk]
      · simp only [fsLookup, if_neg hq]
        rw [ih]

theorem fsExists_false_fsErase (fs : FS) (k q : String)
    (h : fsExists fs q = false) : fsExists (fsErase fs k) q = false := by
  unfold fsExists at h ⊢
  rw [fsLookup_fsErase]
  by_cases hq : q = k
  · simp [hq]
  · simp only [if_neg hq]
    cases he : fsLookup fs q with
    | none => simp
    | some e =>
      rw [he] at h
      cases e with
      | file n => simp at h
      | dir => simp at h
      | symlink t =>
        simp only
        unfold derefConcrete at h ⊢
        rw [fsLookup_fsErase]
        by_cases ht : t = k
        · simp [ht]
        · simp only [if_neg ht]; exact h

theorem fsIsFile_exists (fs : FS) (p : String)
    (h : fsIsFile fs p = true) : fsExists fs p = true := by
  unfold fsIsFile at h
  unfold fsExists
  cases he : fsLookup fs p with
  | none => rw [he] at h; simp at h
  | some e =>
    rw [he] at h
    cases e with
    | file n => simp
    | dir => simp at h
    | symlink t =>
      simp only at h ⊢
      unfold derefConcrete
      cases ht : fsLookup fs t with
      | none => rw [ht] at h; simp at h
      | some e' =>
        rw [ht] at h
        cases e' with
        | file n => simp
        | dir => simp at h
        | symlink u => simp at h

theorem flatGet_some_dests (dirconf : List (String × Option String))
    (mon t : String) (h : flatGet dirconf mon = some t) :
    dests dirconf ≠ [] := by
  induction dirconf with
  | nil => simp [flatGet] at h
  | cons hd tl ih =>
    obtain ⟨k, v⟩ := hd
    by_cases hk : k = mon
    · subst hk
      simp only [flatGet, if_pos rfl] at h
      subst h
      simp [dests]
    · simp only [flatGet, if_neg hk] at h
      have := ih h
      cases v with
      | none => simpa [dests] using this
      | some u => simp [dests]

theorem mem_dirconf_dests (dirconf : List (String × Option String))
    (mon t : String) (h : (mon, some t) ∈ dirconf) :
    dests dirconf ≠ [] := by
  induction dirconf with
  | nil => simp at h
  | cons hd tl ih =>
    obtain ⟨k, v⟩ := hd
    rcases List.mem_cons.mp h with heq | hmem
    · cases heq; simp [dests]
    · have := ih hmem
      cases v with
      | none => simpa [dests] using this
      | some u => simp [dests]

/-- Whenever the target argument is `None` or some non-`None` destination is
configured — the only situations reachable from `event_handler` and
`sync_all` — `__handle_file` leaves the filesystem exactly as it found it:
either it returns before any mutation or it raises before any mutation. -/
theorem handle_file_engine_fst (st : PluginState) (fs : FS) (p : PyStrOrPath)
    (mon : String) (tgt : Option String)
    (h : tgt = none ∨ dests st.dirconf ≠ []) :
    (handle_file st fs p mon tgt).1 = fs := by
  cases p with
  | str s => simp [handle_file]
  | path s =>
    unfold handle_file
    by_cases hex : fsExists fs s = false
    · simp [hex]
    · simp only [if_neg hex]
      cases hd : dests st.dirconf with
      | nil =>
        simp only [insideAnyDestination, hd]
        cases hr : relative_to s mon with
        | none => simp
        | some rel =>
          rcases h with htn | hds
          · subst htn; simp
          · exact absurd hd hds
      | cons d ds => simp [insideAnyDestination, hd]

theorem handleFiles_fst (st : PluginState) (mon : String) (tgt : Option String)
    (ps : List String) (fs : FS)
    (h : tgt = none ∨ dests st.dirconf ≠ []) :
    (handleFiles st mon tgt ps fs).1 = fs := by
  induction ps generalizing fs with
  | nil => simp [handleFiles]
  | cons p ps ih =>
    unfold handleFiles
    cases hr : handle_file st fs (PyStrOrPath.path p) mon tgt with
    | mk fs' err =>
      have hf : fs' = fs := by
        have hh := handle_file_engine_fst st fs (PyStrOrPath.path p) mon tgt h
        rw [hr] at hh
        exact hh
      cases err with
      | none =>
        show (handleFiles st mon tgt ps fs').1 = fs
        rw [ih fs']
        exact hf
      | some e => exact hf

theorem syncGo_fst (st : PluginState) (l : List (String × Option String))
    (fs : FS) (h : ∀ mon tgt, (mon, tgt) ∈ l → tgt = none ∨ dests st.dirconf ≠ []) :
    (syncGo st l fs).1 = fs := by
  induction l generalizing fs with
  | nil => simp [syncGo]
  | cons hd tl ih =>
    obtain ⟨mon, tgt⟩ := hd
    unfold syncGo
    have hmem : tgt = none ∨ dests st.dirconf ≠ [] :=
      h mon tgt (List.mem_cons_self _ _)
    cases hr : handleFiles st mon tgt (filesUnder fs mon) fs with
    | mk fs' err =>
      have hfst : fs' = fs := by
        have hh := handleFiles_fst st mon tgt (filesUnder fs mon) fs hmem
        rw [hr] at hh
        exact hh
      cases err with
      | none =>
        show (syncGo st tl fs').1 = fs
        rw [ih fs' (fun mon' tgt' hm => h mon' tgt' (List.mem_cons_of_mem _ hm))]
        exact hfst
      | some e => exact hfst

/-- `sync_all` never changes the filesystem: every mapping either has no
destination (so materialization raises `AttributeError` at the `None` join)
or has one (so the membership guard raises `TypeError`), in both cases
before any mutation. -/
theorem sync_all_fst (st : PluginState) (fs : FS) : (sync_all st fs).1 = fs := by
  unfold sync_all
  apply syncGo_fst
  intro mon tgt hm
  cases tgt with
  | none => exact Or.inl rfl
  | some t => exact Or.inr (mem_dirconf_dests st.dirconf mon t hm)

theorem delLoop_lookup_none (l : List (String × Option String)) (rel : String)
    (fs : FS) (q : String) (h : fsLookup fs q = none) :
    fsLookup (delLoop l rel fs).1 q = none := by
  induction l generalizing fs with
  | nil => simpa [delLoop] using h
  | cons hd tl ih =>
    obtain ⟨k, v⟩ := hd
    cases v with
    | none => exact ih fs h
    | some t =>
      unfold delLoop
      by_cases he : fsExists fs (joinPath t rel) = true
      · rw [if_pos he]
        have herase : fsLookup (fsErase fs (joinPath t rel)) q = none := by
          rw [fsLookup_fsErase]
          by_cases hq : q = joinPath t rel
          · simp [hq]
          · simp [hq, h]
        cases hl : fsLookup fs (joinPath t rel) with
        | none => exact ih _ herase
        | some e =>
          cases e with
          | file n => exact ih _ herase
          | symlink u => exact ih _ herase
          | dir => exact h
      · rw [if_neg he]
        exact ih fs h

theorem handle_delete_fst_lookup_none (st : PluginState) (fs : FS)
    (p mon q : String) (h : fsLookup fs q = none) :
    fsLookup (handle_delete st fs p mon).1 q = none := by
  unfold handle_delete
  cases hr : relative_to p mon with
  | none => simpa using h
  | some rel => exact delLoop_lookup_none st.dirconf rel fs q h

theorem event_handler_fst_lookup_none (rg : String → String → Bool)
    (st : PluginState) (fs : FS) (text mon p q : String)
    (h : fsLookup fs q = none) :
    fsLookup (event_handler rg st fs text mon p).1 q = none := by
  unfold event_handler
  split
  · exact h
  · split
    · exact h
    · split
      · exact h
      · split
        · exact handle_delete_fst_lookup_none st fs p mon q h
        · rw [handle_file_engine_fst st fs (PyStrOrPath.str p) mon
            (flatGet st.dirconf mon) ?_]
          · exact h
          · cases hg : flatGet st.dirconf mon with
            | none => exact Or.inl rfl
            | some t => exact Or.inr (flatGet_some_dests st.dirconf mon t hg)

theorem runOp_lookup_none (rg : String → String → Bool) (st : PluginState)
    (fs : FS) (op : EngineOp) (q : String) (h : fsLookup fs q = none) :
    fsLookup (runOp rg st fs op) q = none := by
  cases op with
  | ev text mon p => exact event_handler_fst_lookup_none rg st fs text mon p q h
  | syncAll => simpa [runOp, sync_all_fst] using h

theorem runOps_lookup_none (rg : String → String → Bool) (st : PluginState)
    (ops : List EngineOp) (fs : FS) (q : String) (h : fsLookup fs q = none) :
    fsLookup (runOps rg st ops fs) q = none := by
  induction ops generalizing fs with
  | nil => simpa [runOps] using h
  | cons op ops ih =>
    unfold runOps
    simp only [List.foldl_cons]
    exact ih (runOp rg st fs op) (runOp_lookup_none rg st fs op q h)

theorem fsExists_fsErase_self (fs : FS) (k : String) :
    fsExists (fsErase fs k) k = false := by
  unfold fsExists
  rw [fsLookup_fsErase]
  simp

theorem dests_cons_none (k : String) (tl : List (String × Option String)) :
    dests ((k, none) :: tl) = dests tl := by
  simp [dests]

theorem dests_cons_some (k t : String) (tl : List (String × Option String)) :
    dests ((k, some t) :: tl) = t :: dests tl := by
  simp [dests]

theorem delLoop_exists_false (l : List (String × Option String)) (rel : String)
    (fs : FS) (q : String) (h : fsExists fs q = false) :
    fsExists (delLoop l rel fs).1 q = false := by
  induction l generalizing fs with
  | nil => simpa [delLoop] using h
  | cons hd tl ih =>
    obtain ⟨k, v⟩ := hd
    cases v with
    | none => exact ih fs h
    | some t =>
      unfold delLoop
      by_cases he : fsExists fs (joinPath t rel) = true
      · rw [if_pos he]
        have herase := fsExists_false_fsErase fs (joinPath t rel) q h
        cases hl : fsLookup fs (joinPath t rel) with
        | none => exact ih _ herase
        | some e =>
          cases e with
          | file n => exact ih _ herase
          | symlink u => exact ih _ herase
          | dir => exact h
      · rw [if_neg he]
        exact ih fs h

/-- When no configured destination's target for the deleted relative path
holds a directory entry, the deletion loop raises nothing (every reached
`unlink` succeeds). -/
theorem delLoop_no_dir_no_err (l : List (String × Option String))
    (rel : String) (fs : FS)
    (hdir : ∀ t ∈ dests l, fsLookup fs (joinPath t rel) ≠ some Entry.dir) :
    (delLoop l rel fs).2 = none := by
  induction l generalizing fs with
  | nil => rfl
  | cons hd tl ih =>
    obtain ⟨k, v⟩ := hd
    cases v with
    | none =>
      refine ih fs ?_
      intro t ht
      exact hdir t (by rw [dests_cons_none]; exact ht)
    | some t0 =>
      unfold delLoop
      have ht0 := hdir t0 (by rw [dests_cons_some]; exact List.mem_cons_self _ _)
      have hsub : ∀ t ∈ dests tl, fsLookup fs (joinPath t rel) ≠ some Entry.dir :=
        fun t ht => hdir t (by rw [dests_cons_some]; exact List.mem_cons_of_mem _ ht)
      have hdir' : ∀ t ∈ dests tl,
          fsLookup (fsErase fs (joinPath t0 rel)) (joinPath t rel) ≠ some Entry.dir := by
        intro t ht
        rw [fsLookup_fsErase]
        by_cases hq : joinPath t rel = joinPath t0 rel
        · simp [hq]
        · rw [if_neg hq]
          exact hsub t ht
      by_cases he : fsExists fs (joinPath t0 rel) = true
      · rw [if_pos he]
        cases hl : fsLookup fs (joinPath t0 rel) with
        | none => exact ih _ hdir'
        | some e =>
          cases e with
          | file n => exact ih _ hdir'
          | symlink u => exact ih _ hdir'
          | dir => exact absurd hl ht0
      · rw [if_neg he]
        exact ih fs hsub

/-- After a deletion loop in which no target held a directory, no
configured destination's target for the deleted relative path exists any
more (in the symlink-following sense of `exists()`). -/
theorem delLoop_kills (l : List (String × Option String)) (rel : String)
    (fs : FS)
    (hdir : ∀ t ∈ dests l, fsLookup fs (joinPath t rel) ≠ some Entry.dir) :
    ∀ t ∈ dests l, fsExists (delLoop l rel fs).1 (joinPath t rel) = false := by
  induction l generalizing fs with
  | nil => intro t ht; simp [dests] at ht
  | cons hd tl ih =>
    obtain ⟨k, v⟩ := hd
    cases v with
    | none =>
      intro t ht
      rw [dests_cons_none] at ht
      exact ih fs
        (fun u hu => hdir u (by rw [dests_cons_none]; exact hu)) t ht
    | some t0 =>
      have ht0lookup := hdir t0 (by rw [dests_cons_some]; exact List.mem_cons_self _ _)
      have hsub : ∀ u ∈ dests tl, fsLookup fs (joinPath u rel) ≠ some Entry.dir :=
        fun u hu => hdir u (by rw [dests_cons_some]; exact List.mem_cons_of_mem _ hu)
      have hdir' : ∀ u ∈ dests tl,
          fsLookup (fsErase fs (joinPath t0 rel)) (joinPath u rel) ≠ some Entry.dir := by
        intro u hu
        rw [fsLookup_fsErase]
        by_cases hq : joinPath u rel = joinPath t0 rel
        · simp [hq]
        · rw [if_neg hq]
          exact hsub u hu
      intro t ht
      rw [dests_cons_some] at ht
      unfold delLoop
      by_cases he : fsExists fs (joinPath t0 rel) = true
      · rw [if_pos he]
        cases hl : fsLookup fs (joinPath t0 rel) with
        | none =>
          rcases List.mem_cons.mp ht with heq | hmem
          · subst heq
            exact delLoop_exists_false tl rel _ _ (fsExists_fsErase_self fs _)
          · exact ih _ hdir' t hmem
        | some e =>
          cases e with
          | file n =>
            rcases List.mem_cons.mp ht with heq | hmem
            · subst heq
              exact delLoop_exists_false tl rel _ _ (fsExists_fsErase_self fs _)
            · exact ih _ hdir' t hmem
          | symlink u =>
            rcases List.mem_cons.mp ht with heq | hmem
            · subst heq
              exact delLoop_exists_false tl rel _ _ (fsExists_fsErase_self fs _)
            · exact ih _ hdir' t hmem
          | dir => exact absurd hl ht0lookup
      · rw [if_neg he]
        rcases List.mem_cons.mp ht with heq | hmem
        · subst heq
          exact delLoop_exists_false tl rel fs _ (by simpa using he)
        · exact ih fs hsub t hmem

/-- The deletion loop touches no path other than the per-destination
targets of the deleted relative path (this holds even when the loop aborts
with `IsADirectoryError`: only targets were erased up to that point). -/
theorem delLoop_lookup_untouched (l : List (String × Option String))
    (rel : String) (fs : FS) (q : String)
    (h : ∀ t ∈ dests l, q ≠ joinPath t rel) :
    fsLookup (delLoop l rel fs).1 q = fsLookup fs q := by
  induction l generalizing fs with
  | nil => simp [delLoop]
  | cons hd tl ih =>
    obtain ⟨k, v⟩ := hd
    cases v with
    | none =>
      refine (ih fs ?_)
      intro t ht
      exact h t (by rw [dests_cons_none]; exact ht)
    | some t0 =>
      unfold delLoop
      have ht0 : q ≠ joinPath t0 rel :=
        h t0 (by rw [dests_cons_some]; exact List.mem_cons_self _ _)
      have hsub : ∀ t ∈ dests tl, q ≠ joinPath t rel :=
        fun t ht => h t (by rw [dests_cons_some]; exact List.mem_cons_of_mem _ ht)
      have herase : fsLookup (fsErase fs (joinPath t0 rel)) q = fsLookup fs q := by
        rw [fsLookup_fsErase, if_neg ht0]
      by_cases he : fsExists fs (joinPath t0 rel) = true
      · rw [if_pos he]
        cases hl : fsLookup fs (joinPath t0 rel) with
        | none => rw [ih _ hsub, herase]
        | some e =>
          cases e with
          | file n => rw [ih _ hsub, herase]
          | symlink u => rw [ih _ hsub, herase]
          | dir => rfl
      · rw [if_neg he]
        exact ih fs hsub

theorem handleFilesTrace_noLock (st : PluginState) (mon : String)
    (tgt : Option String) (ps : List String) (fs : FS) :
    noLockActs (handleFilesTrace st mon tgt ps fs).1 = true := by
  induction ps generalizing fs with
  | nil => rfl
  | cons p ps ih =>
    unfold handleFilesTrace
    cases hr : handle_file st fs (PyStrOrPath.path p) mon tgt with
    | mk fs' err =>
      cases err with
      | none =>
        show noLockActs (Act.handleFileAct p ::
          (handleFilesTrace st mon tgt ps fs').1) = true
        simpa [noLockActs] using ih fs'
      | some e => rfl

theorem syncGoTrace_noLock (st : PluginState)
    (l : List (String × Option String)) (fs : FS) :
    noLockActs (syncGoTrace st l fs) = true := by
  induction l generalizing fs with
  | nil => rfl
  | cons hd tl ih =>
    obtain ⟨mon, tgt⟩ := hd
    unfold syncGoTrace
    cases hr : handleFilesTrace st mon tgt (filesUnder fs mon) fs with
    | mk acts r2 =>
      obtain ⟨fs', err⟩ := r2
      have hacts : noLockActs acts = true := by
        have hh := handleFilesTrace_noLock st mon tgt (filesUnder fs mon) fs
        rw [hr] at hh
        exact hh
      cases err with
      | none =>
        show noLockActs (acts ++ syncGoTrace st tl fs') = true
        unfold noLockActs at hacts ⊢
        rw [List.all_append, Bool.and_eq_true]
        exact ⟨hacts, ih fs'⟩
      | some e => exact hacts

/-! ## Claim theorems -/

/-- C1: for every configured exclude pattern and every file whose full path
matches the pattern (under the abstract case-insensitive regex matcher
`rg`), no file is ever created at the corresponding destination path by any
sequence of engine operations — events handled by `event_handler` and full
resyncs by `sync_all` — no matter how many events arrive for that path.
(In this code the property holds outright: `event_handler` skips matching
paths before dispatch, and no operation ever creates a destination entry at
all, because `__handle_file` raises before reaching its mutation steps.) -/
theorem c1_exclude_never_created (rg : String → String → Bool)
    (st : PluginState) (fs : FS) (ops : List EngineOp) (mon t p rel : String)
    (_hmap : (mon, some t) ∈ st.dirconf)
    (_hrel : relative_to p mon = some rel)
    (_hpat : st.exclude_keywords ≠ "")
    (_hmatch : rg st.exclude_keywords p = true)
    (hinit : fsLookup fs (joinPath t rel) = none) :
    fsLookup (runOps rg st ops fs) (joinPath t rel) = none :=
  runOps_lookup_none rg st ops fs (joinPath t rel) hinit

/-- Witness for C1: mapping `/src → /dst`, exclude pattern `.tmp` matching
`/src/file.tmp` (substring matcher standing in for the regex engine); after
a created event, a full resync and a moved event for that path, no entry
exists at `/dst/file.tmp`. -/
theorem c1_exclude_never_created_witness :
    ((("/src", some "/dst") ∈ ([("/src", some "/dst")] : List (String × Option String)))
      ∧ relative_to "/src/file.tmp" "/src" = some "file.tmp"
      ∧ (".tmp" : String) ≠ ""
      ∧ containsSub ".tmp" "/src/file.tmp" = true
      ∧ fsLookup [("/src/file.tmp", Entry.file 7)] (joinPath "/dst" "file.tmp") = none)
    ∧ fsLookup
        (runOps containsSub ⟨[("/src", some "/dst")], false, 0, ".tmp"⟩
          [EngineOp.ev "创建" "/src" "/src/file.tmp", EngineOp.syncAll,
           EngineOp.ev "移动" "/src" "/src/file.tmp"]
          [("/src/file.tmp", Entry.file 7)])
        (joinPath "/dst" "file.tmp") = none :=
  ⟨⟨by decide, by decide, by decide, by decide, by decide⟩,
   c1_exclude_never_created containsSub
     ⟨[("/src", some "/dst")], false, 0, ".tmp"⟩
     [("/src/file.tmp", Entry.file 7)]
     [EngineOp.ev "创建" "/src" "/src/file.tmp", EngineOp.syncAll,
      EngineOp.ev "移动" "/src" "/src/file.tmp"]
     "/src" "/dst" "/src/file.tmp" "file.tmp"
     (by decide) (by decide) (by decide) (by decide) (by decide)⟩

/-- C2 (code bug): the size-threshold claim fails in its re-materialization
part.  With a 1 MB threshold, mapping `/src → /dst` and a 100-byte (i.e.
truncated, below-threshold) file `/src/a.mkv`, a created event passes the
size check but materializes nothing: `__handle_file` receives the raw event
path as a `str` and raises `AttributeError` at `path.exists()` (the
exception is caught and only reported), and a full resync raises
`TypeError` in the destination-membership guard — either way no entry is
created at `/dst/a.mkv`, where the claim requires the file to be
materialized. -/
theorem c2_truncated_file_not_materialized :
    event_handler containsSub ⟨[("/src", some "/dst")], false, 1, ""⟩
      [("/src/a.mkv", Entry.file 100)] "创建" "/src" "/src/a.mkv"
      = ([("/src/a.mkv", Entry.file 100)], some PyErr.attributeError)
    ∧ sync_all ⟨[("/src", some "/dst")], false, 1, ""⟩
        [("/src/a.mkv", Entry.file 100)]
      = ([("/src/a.mkv", Entry.file 100)], some PyErr.typeError)
    ∧ fsLookup [("/src/a.mkv", Entry.file 100)] "/dst/a.mkv" = none :=
  ⟨by decide, by decide, by decide⟩

/-- C3 counterexample: with mapping `/src → /dst` and two files under
`/src`, the exception raised while materializing the first file propagates
out of `sync_all` (there is no per-file `try/except` in `sync_all`): the
resync aborts with `TypeError`, the second file is never reached, and
nothing is materialized — contradicting the claim that one file's failure
never aborts the tree walk or the whole resync. -/
theorem c3_sync_error_aborts_counterexample :
    sync_all ⟨[("/src", some "/dst")], false, 0, ""⟩
      [("/src/a.mkv", Entry.file 1), ("/src/b.mkv", Entry.file 2)]
      = ([("/src/a.mkv", Entry.file 1), ("/src/b.mkv", Entry.file 2)],
         some PyErr.typeError)
    ∧ (sync_all ⟨[("/src", some "/dst")], false, 0, ""⟩
        [("/src/a.mkv", Entry.file 1), ("/src/b.mkv", Entry.file 2)]).2 ≠ none :=
  ⟨by decide, by decide⟩

/-- C3 amended: an exception raised while materializing a single file
during `sync_all` is NOT contained — it propagates and aborts the remaining
walk and the whole resync.  Concretely, whenever the first configured
mapping has a destination and its tree contains at least one file, the very
first `__handle_file` call raises `TypeError` in the destination-membership
guard and `sync_all` terminates immediately with that exception, the
filesystem untouched.  (Containment of handling exceptions exists only in
`event_handler`.) -/
theorem c3_amended_sync_error_propagates (st : PluginState) (fs : FS)
    (mon t : String) (rest : List (String × Option String))
    (p : String) (ps : List String)
    (hconf : st.dirconf = (mon, some t) :: rest)
    (hfiles : filesUnder fs mon = p :: ps) :
    sync_all st fs = (fs, some PyErr.typeError) := by
  have hp : fsIsFile fs p = true := by
    have hmem : p ∈ filesUnder fs mon := by
      rw [hfiles]; exact List.mem_cons_self _ _
    unfold filesUnder at hmem
    have hfl := (List.mem_filter.mp hmem).2
    rw [Bool.and_eq_true] at hfl
    exact hfl.2
  have hex : fsExists fs p = true := fsIsFile_exists fs p hp
  have hdests : dests st.dirconf = t :: dests rest := by
    rw [hconf, dests_cons_some]
  have hhf : handle_file st fs (PyStrOrPath.path p) mon (some t)
      = (fs, some PyErr.typeError) := by
    simp only [handle_file]
    rw [if_neg (by simp [hex])]
    simp [insideAnyDestination, hdests]
  unfold sync_all
  rw [hconf]
  unfold syncGo
  rw [hfiles]
  unfold handleFiles
  rw [hhf]

/-- Witness for C3's amended theorem: one mapping, one file, the resync
aborts at once with `TypeError`. -/
theorem c3_amended_sync_error_propagates_witness :
    ((⟨[("/src", some "/dst")], true, 0, ""⟩ : PluginState).dirconf
        = ("/src", some "/dst") :: []
      ∧ filesUnder [("/src/x.mkv", Entry.file 9)] "/src" = "/src/x.mkv" :: [])
    ∧ sync_all ⟨[("/src", some "/dst")], true, 0, ""⟩
        [("/src/x.mkv", Entry.file 9)]
      = ([("/src/x.mkv", Entry.file 9)], some PyErr.typeError) :=
  ⟨⟨by decide, by decide⟩,
   c3_amended_sync_error_propagates
     ⟨[("/src", some "/dst")], true, 0, ""⟩ [("/src/x.mkv", Entry.file 9)]
     "/src" "/dst" [] "/src/x.mkv" [] (by decide) (by decide)⟩

/-- C4 counterexample: mapping `/src → /dst`; the destination holds a
symbolic link `/dst/a.mkv → /src/a.mkv` whose referent was just deleted.
A file is present at the target path, yet `__handle_delete` does not remove
it: the `exists()` check follows the (now dangling) symlink and reports
`False`, so the unlink is skipped and the filesystem is returned
unchanged — contradicting the claim's "including when it is a symbolic link
whose referent was just deleted". -/
theorem c4_dangling_symlink_not_removed :
    fsLookup [("/dst/a.mkv", Entry.symlink "/src/a.mkv")] "/dst/a.mkv"
      = some (Entry.symlink "/src/a.mkv")
    ∧ handle_delete ⟨[("/src", some "/dst")], false, 0, ""⟩
        [("/dst/a.mkv", Entry.symlink "/src/a.mkv")] "/src/a.mkv" "/src"
      = ([("/dst/a.mkv", Entry.symlink "/src/a.mkv")], none) :=
  ⟨by decide, by decide⟩

/-- C4 amended: for every deleted source path below a watched root, the
deletion propagator removes each configured destination's target for the
relative path exactly when `exists()` (symlink-following) holds there and
the entry is not a directory — so a dangling symbolic link at the target is
left in place, and a missing target is a no-op with no error; a directory
at a target makes `unlink()` raise `IsADirectoryError`, aborting the
remaining destinations.  Provided no target holds a directory, the
propagator raises no error, afterwards no destination target exists, and no
other path is touched. -/
theorem c4_amended_delete_propagation (st : PluginState) (fs : FS)
    (p mon rel : String) (hrel : relative_to p mon = some rel)
    (hdir : ∀ t ∈ dests st.dirconf,
      fsLookup fs (joinPath t rel) ≠ some Entry.dir) :
    (handle_delete st fs p mon).2 = none
    ∧ (∀ t ∈ dests st.dirconf,
        fsExists (handle_delete st fs p mon).1 (joinPath t rel) = false)
    ∧ (∀ q, (∀ t ∈ dests st.dirconf, q ≠ joinPath t rel) →
        fsLookup (handle_delete st fs p mon).1 q = fsLookup fs q) := by
  unfold handle_delete
  rw [hrel]
  exact ⟨delLoop_no_dir_no_err st.dirconf rel fs hdir,
         delLoop_kills st.dirconf rel fs hdir,
         fun q hq => delLoop_lookup_untouched st.dirconf rel fs q hq⟩

/-- Witness for C4's amended theorem: deleting `/src/b.mkv` removes the
regular file at `/dst/b.mkv` (no target holds a directory), leaves `/keep`
alone and raises no error (a second mapping with no destination is skipped
by the loop). -/
theorem c4_amended_delete_propagation_witness :
    (relative_to "/src/b.mkv" "/src" = some "b.mkv"
      ∧ (∀ t ∈ dests (⟨[("/src", some "/dst"), ("/mov", none)], false, 0, ""⟩
            : PluginState).dirconf,
          fsLookup [("/dst/b.mkv", Entry.file 3), ("/keep", Entry.file 1)]
            (joinPath t "b.mkv") ≠ some Entry.dir))
    ∧ ((handle_delete ⟨[("/src", some "/dst"), ("/mov", none)], false, 0, ""⟩
          [("/dst/b.mkv", Entry.file 3), ("/keep", Entry.file 1)]
          "/src/b.mkv" "/src").2 = none
      ∧ (∀ t ∈ dests (⟨[("/src", some "/dst"), ("/mov", none)], false, 0, ""⟩
            : PluginState).dirconf,
          fsExists (handle_delete
              ⟨[("/src", some "/dst"), ("/mov", none)], false, 0, ""⟩
              [("/dst/b.mkv", Entry.file 3), ("/keep", Entry.file 1)]
              "/src/b.mkv" "/src").1 (joinPath t "b.mkv") = false)
      ∧ (∀ q, (∀ t ∈ dests (⟨[("/src", some "/dst"), ("/mov", none)], false, 0, ""⟩
            : PluginState).dirconf, q ≠ joinPath t "b.mkv") →
          fsLookup (handle_delete
              ⟨[("/src", some "/dst"), ("/mov", none)], false, 0, ""⟩
              [("/dst/b.mkv", Entry.file 3), ("/keep", Entry.file 1)]
              "/src/b.mkv" "/src").1 q
            = fsLookup [("/dst/b.mkv", Entry.file 3), ("/keep", Entry.file 1)] q)) :=
  ⟨⟨by decide, by decide⟩,
   c4_amended_delete_propagation
     ⟨[("/src", some "/dst"), ("/mov", none)], false, 0, ""⟩
     [("/dst/b.mkv", Entry.file 3), ("/keep", Entry.file 1)]
     "/src/b.mkv" "/src" "b.mkv" (by decide) (by decide)⟩

/-- C5 (code bug): the destination-membership guard does not return
normally.  With mapping `/src → /dst` and path `/src/a.mkv`, the spec's
reading (`isInsideAnyDestinationSpec`) evaluates to `false` (no destination
root is a substring of the path) and materialization should proceed; the
code instead raises `TypeError` — the stored destinations are
`pathlib.Path` objects and `p in str(path)` invokes `str.__contains__` on a
non-`str` operand.  The guard returns normally only when every configured
destination is `None`. -/
theorem c5_membership_guard_raises :
    insideAnyDestination [("/src", some "/dst")] "/src/a.mkv"
      = Except.error PyErr.typeError
    ∧ isInsideAnyDestinationSpec [("/src", some "/dst")] "/src/a.mkv" = false
    ∧ insideAnyDestination [("/other", none)] "/src/a.mkv" = Except.ok false :=
  ⟨rfl, by decide, rfl⟩

/-- C6 counterexample: configuring the single line `/src:/src/dst` (a
destination nested inside its own source) with the plugin enabled leaves
the mapping in the stored source-to-destination table: `_dirconf` is
assigned before the nested-destination check runs, and `continue` skips
only the watch-job scheduling — contradicting the claim that the stored
table never contains such a mapping.  (No watch job is scheduled, as the
empty `watchJobs` shows.) -/
theorem c6_nested_mapping_stored_counterexample :
    ("/src", some "/src/dst") ∈ (init_plugin true false "/src:/src/dst").dirconf
    ∧ is_relative_to "/src/dst" "/src" = true
    ∧ (init_plugin true false "/src:/src/dst").watchJobs = [] :=
  ⟨by decide, by decide, by decide⟩

/-- C6 amended: a configuration line whose destination equals or is nested
inside its own source never gets a watch job scheduled for it (with the
plugin enabled the nested-destination check fires and `continue` skips the
scheduling; disabled, no jobs are scheduled at all) — but the mapping IS
stored into the source-to-destination table, so the table can contain a
mapping whose destination is a descendant of its source. -/
theorem c6_amended_nested_no_watch_job (enabled : Bool) (acc : InitResult)
    (line mon t : String)
    (hp : parseLine line = (mon, some t))
    (hnest : is_relative_to t mon = true) :
    (lineStep enabled acc line).watchJobs = acc.watchJobs
    ∧ (lineStep enabled acc line).dirconf = dictInsert acc.dirconf mon (some t) := by
  have hline : line ≠ "" := by
    intro h
    rw [h] at hp
    simp [parseLine, pySplit, splitOnChar] at hp
  unfold lineStep
  rw [if_neg hline, hp]
  cases enabled with
  | false => exact ⟨rfl, rfl⟩
  | true =>
    simp only [if_true]
    rw [if_pos hnest]
    exact ⟨rfl, rfl⟩

/-- Witness for C6's amended theorem: line `/a:/a/b` (destination nested in
source) with the plugin enabled schedules no watch job, yet stores the
mapping. -/
theorem c6_amended_nested_no_watch_job_witness :
    (parseLine "/a:/a/b" = ("/a", some "/a/b")
      ∧ is_relative_to "/a/b" "/a" = true)
    ∧ ((lineStep true ⟨[], []⟩ "/a:/a/b").watchJobs = ([] : List String)
      ∧ (lineStep true ⟨[], []⟩ "/a:/a/b").dirconf
          = dictInsert [] "/a" (some "/a/b")) :=
  ⟨⟨by decide, by decide⟩,
   c6_amended_nested_no_watch_job true ⟨[], []⟩ "/a:/a/b" "/a" "/a/b"
     (by decide) (by decide)⟩

/-- C7 counterexample: with mapping `/src → /dst` and one file, the trace
of a `sync_all` run consists of a handling action performed with no lock
interaction at all — `sync_all` never acquires the global lock, so the
claim that the full-resync path executes its handling (and hence its
mutations) under the single global mutual-exclusion lock is false. -/
theorem c7_sync_all_unlocked_counterexample :
    allUnderLock (sync_all_trace ⟨[("/src", some "/dst")], false, 0, ""⟩
      [("/src/a.mkv", Entry.file 1)]) = false
    ∧ sync_all_trace ⟨[("/src", some "/dst")], false, 0, ""⟩
        [("/src/a.mkv", Entry.file 1)]
      = [Act.handleFileAct "/src/a.mkv"] :=
  ⟨by decide, by decide⟩

/-- C7 amended: `event_handler` does run entirely under the global lock —
every call's trace is lock-bracketed, with the release on every exit path
(its internal `try/except` catches exceptions inside the critical section)
— but `sync_all` runs its handling with no lock interaction whatsoever:
its trace never contains an acquire or release.  (In this code `sync_all`
also never reaches an actual filesystem mutation, since materialization
raises first; the global at-most-one-mutation property thus holds, but not
by the claimed mechanism.) -/
theorem c7_amended_lock_structure :
    (∀ (rg : String → String → Bool) (st : PluginState) (fs : FS)
        (text mon p : String),
      allUnderLock (event_handler_trace rg st fs text mon p) = true)
    ∧ (∀ (st : PluginState) (fs : FS),
        noLockActs (sync_all_trace st fs) = true) := by
  constructor
  · intro rg st fs text mon p
    unfold event_handler_trace event_body_acts allUnderLock
    split_ifs <;> rfl
  · intro st fs
    exact syncGoTrace_noLock st st.dirconf fs

/-- C8 (code bug): scenario A of the spec — mapping `/src → /dst`, copy
mode off, existing media file `/src/a/movie.mkv` — must produce a symbolic
link at `/dst/a/movie.mkv`; instead the materializer raises `TypeError` in
the destination-membership guard before reaching the link/copy decision
(lines 301-310 are unreachable whenever a destination is configured), and
no entry of any kind is created at the target. -/
theorem c8_scenario_a_no_symlink_created :
    sync_all ⟨[("/src", some "/dst")], false, 0, ""⟩
      [("/src/a/movie.mkv", Entry.file 5)]
      = ([("/src/a/movie.mkv", Entry.file 5)], some PyErr.typeError)
    ∧ fsLookup [("/src/a/movie.mkv", Entry.file 5)] "/dst/a/movie.mkv" = none :=
  ⟨by decide, by decide⟩

/-- C9 (code bug): materializing the same existing source file twice in a
row does not leave exactly one target entry with no error on the second
run: both runs raise `TypeError` in the destination-membership guard (the
first run's exception already contradicts the claimed idempotent success),
and no entry at all exists at the target afterwards. -/
theorem c9_rematerialization_errors_both_times :
    handle_file ⟨[("/src", some "/dst")], false, 0, ""⟩
      [("/src/a.mkv", Entry.file 4)] (PyStrOrPath.path "/src/a.mkv") "/src"
      (some "/dst")
      = ([("/src/a.mkv", Entry.file 4)], some PyErr.typeError)
    ∧ handle_file ⟨[("/src", some "/dst")], false, 0, ""⟩
        (handle_file ⟨[("/src", some "/dst")], false, 0, ""⟩
          [("/src/a.mkv", Entry.file 4)] (PyStrOrPath.path "/src/a.mkv") "/src"
          (some "/dst")).1
        (PyStrOrPath.path "/src/a.mkv") "/src" (some "/dst")
      = ([("/src/a.mkv", Entry.file 4)], some PyErr.typeError)
    ∧ fsLookup [("/src/a.mkv", Entry.file 4)] "/dst/a.mkv" = none :=
  ⟨by decide, by decide, by decide⟩

/-- C10: for a mapping stored with destination `None`, the single-file
materializer invoked (as `sync_all` invokes it) on an existing file under
that mapping never silently no-ops: it raises — `TypeError` in the
destination-membership guard when some other mapping has a destination
configured, otherwise `AttributeError` when joining against the `None`
destination — and the filesystem is left unchanged, so no file under such
a mapping is ever materialized. -/
theorem c10_none_destination_raises (st : PluginState) (fs : FS)
    (p mon : String)
    (_hmap : (mon, none) ∈ st.dirconf)
    (hex : fsExists fs p = true)
    (hrel : (relative_to p mon).isSome = true) :
    (handle_file st fs (PyStrOrPath.path p) mon none).1 = fs
    ∧ ∃ e, (handle_file st fs (PyStrOrPath.path p) mon none).2 = some e
        ∧ (e = PyErr.typeError ∨ e = PyErr.attributeError) := by
  have hnf : ¬ (fsExists fs p = false) := by simp [hex]
  cases hd : dests st.dirconf with
  | nil =>
    obtain ⟨rel, hr⟩ := Option.isSome_iff_exists.mp hrel
    have hhf : handle_file st fs (PyStrOrPath.path p) mon none
        = (fs, some PyErr.attributeError) := by
      simp only [handle_file]
      rw [if_neg hnf]
      simp [insideAnyDestination, hd, hr]
    rw [hhf]
    exact ⟨rfl, PyErr.attributeError, rfl, Or.inr rfl⟩
  | cons d ds =>
    have hhf : handle_file st fs (PyStrOrPath.path p) mon none
        = (fs, some PyErr.typeError) := by
      simp only [handle_file]
      rw [if_neg hnf]
      simp [insideAnyDestination, hd]
    rw [hhf]
    exact ⟨rfl, PyErr.typeError, rfl, Or.inl rfl⟩

/-- Witness for C10: the only mapping `/src` has no destination; the
materializer on `/src/a.mkv` raises (here `AttributeError` from
`None.joinpath`) and changes nothing. -/
theorem c10_none_destination_raises_witness :
    ((("/src", (none : Option String)) ∈
        ([("/src", none)] : List (String × Option String)))
      ∧ fsExists [("/src/a.mkv", Entry.file 1)] "/src/a.mkv" = true
      ∧ (relative_to "/src/a.mkv" "/src").isSome = true)
    ∧ ((handle_file ⟨[("/src", none)], false, 0, ""⟩
          [("/src/a.mkv", Entry.file 1)] (PyStrOrPath.path "/src/a.mkv")
          "/src" none).1 = [("/src/a.mkv", Entry.file 1)]
      ∧ ∃ e, (handle_file ⟨[("/src", none)], false, 0, ""⟩
            [("/src/a.mkv", Entry.file 1)] (PyStrOrPath.path "/src/a.mkv")
            "/src" none).2 = some e
          ∧ (e = PyErr.typeError ∨ e = PyErr.attributeError)) :=
  ⟨⟨by decide, by decide, by decide⟩,
   c10_none_destination_raises ⟨[("/src", none)], false, 0, ""⟩
     [("/src/a.mkv", Entry.file 1)] "/src/a.mkv" "/src"
     (by decide) (by decide) (by decide)⟩

end FileSoftLink
